import Mathlib

/-!
Verification development for the sprite assembly and incremental-cache
engine of the vite-plugin-svg-sprite repository (src/index.ts).

The embedding models the pure core of the plugin:
the string helpers (getHash, resolveFileName, makeSymbolId),
the per-file symbol compile step, the symbol cache (a JavaScript Map
modelled as an association list with replace-in-place update),
the sprite assembly in generateSvgSprite, and the watcher callback.

External collaborators (node crypto md5, the svgo optimizer plus the
jsdom fragment parser, and the filesystem) are passed in as explicit
function parameters, so every definition is an executable function of
its inputs.
-/

namespace VitePluginSvgSprite

/-- Element attribute list. The DOM keeps attributes in insertion order
and setAttribute updates an existing attribute in place. -/
abbrev AttrList := List (String × String)

/-- Root element of an optimized icon as produced by
JSDOM.fragment(optimizedSvg).querySelector and read by the compile step:
its attribute list and its innerHTML markup. -/
structure RootElem where
  attrs : AttrList
  inner : String
  deriving DecidableEq, Repr

/-- Compiled symbol element: attribute list plus innerHTML, as built by
document.createElement and the attribute copy loop in generateSvgSprite. -/
structure SymbolElem where
  attrs : AttrList
  inner : String
  deriving DecidableEq, Repr

/-- Assembled sprite document: the svg root attribute list and the ordered
sequence of appended symbol children. -/
structure SpriteDoc where
  attrs : AttrList
  symbols : List SymbolElem
  deriving DecidableEq, Repr

/-- Result held by the SvgSprite class: the document, its serialization
and the content hash of the serialization. -/
structure SpriteResult where
  doc : SpriteDoc
  content : String
  hash : String
  deriving DecidableEq, Repr

/-- Fixed XML namespace set on the sprite root (SVG_NS in the source). -/
def SVG_NS : String := "http://www.w3.org/2000/svg"

/-- DOM setAttribute on an attribute list: update an existing attribute of
the same name in place, otherwise append a fresh attribute at the end. -/
def setAttr : AttrList → String → String → AttrList
  | [], n, v => [(n, v)]
  | (n0, v0) :: rest, n, v =>
      if n0 = n then (n, v) :: rest else (n0, v0) :: setAttr rest n v

/-- DOM getAttribute on an attribute list: value of the first (and in a
well-formed element only) attribute with the given name. -/
def lookupAttr (attrs : AttrList) (n : String) : Option String :=
  (attrs.find? (fun p => p.1 == n)).map (fun p => p.2)

/-- Replacement of the first occurrence of a pattern, on character lists:
the semantics of the JavaScript String.prototype.replace with a plain
string search argument. When the pattern does not occur the input is
returned unchanged; the empty pattern matches at position zero. -/
def replaceFirstL (pat rep : List Char) : List Char → List Char
  | [] => if pat.isPrefixOf ([] : List Char) then rep else []
  | c :: cs =>
      if pat.isPrefixOf (c :: cs) then rep ++ (c :: cs).drop pat.length
      else c :: replaceFirstL pat rep cs

/-- Replacement of the first occurrence, on strings. Models the call
s.replace(pat, rep) in the source. -/
def replaceFirst (s pat rep : String) : String :=
  String.mk (replaceFirstL pat.data rep.data s.data)

/-- Substring occurrence test on character lists: the semantics of the
JavaScript String.prototype.includes. -/
def hasOccurL (pat : List Char) : List Char → Bool
  | [] => pat.isPrefixOf ([] : List Char)
  | c :: cs => pat.isPrefixOf (c :: cs) || hasOccurL pat cs

/-- Substring occurrence test on strings; models symbolId.includes in the
source. -/
def hasOccur (pat s : String) : Bool := hasOccurL pat.data s.data

/-- Prefix test on strings; models the JavaScript String.prototype
startsWith used through node path helpers. -/
def startsWithStr (s pre : String) : Bool := pre.data.isPrefixOf s.data

/-- Suffix test on strings; models the JavaScript String.prototype
endsWith used by the change handlers. -/
def endsWithStr (s post : String) : Bool := post.data.isSuffixOf s.data

/-- Split of a character list at every slash; mirrors the node behaviour
of String.prototype.split with a slash separator. -/
def splitSlashL : List Char → List (List Char)
  | [] => [[]]
  | c :: cs =>
      match splitSlashL cs with
      | [] => [[]]
      | r :: rs => if c = '/' then [] :: r :: rs else (c :: r) :: rs

/-- Split of a string at every slash. -/
def splitSlash (s : String) : List String := (splitSlashL s.data).map String.mk

/-- Join of path components with slashes. -/
def joinSlash : List String → String
  | [] => ""
  | [x] => x
  | x :: xs => x ++ "/" ++ joinSlash xs

/-- Hash sanitizer and truncation from getHash (src/index.ts lines 42-47):
every character of the digest that is not alphanumeric is replaced by an
underscore, and the first eight characters are kept. The md5-base64 digest
itself is the node crypto collaborator, passed as a function. -/
def getHash (md5b64 : String → String) (content : String) : String :=
  String.mk (((md5b64 content).data.map
    (fun c => if c.isAlphanum then c else '_')).take 8)

/-- Output file name resolution (src/index.ts line 73): the first
occurrence of the hash placeholder in the pattern is replaced by the
content hash. -/
def resolveFileName (pattern hash : String) : String :=
  replaceFirst pattern "[hash]" hash

/-- Directory part of node path.parse: everything before the last slash
(the root slash is kept for absolute one-component paths). -/
def parseDirOf (fp : String) : String :=
  let comps := splitSlash fp
  let d := joinSlash comps.dropLast
  if d = "" && startsWithStr fp "/" && comps.length > 1 then "/" else d

/-- Base part of node path.parse: everything after the last slash. -/
def parseBaseOf (fp : String) : String :=
  (splitSlash fp).getLastD fp

/-- Name part of node path.parse: the base with the extension (from the
last dot, unless the dot is the leading character) removed. -/
def parseNameOf (fp : String) : String :=
  let base := parseBaseOf fp
  let cs := base.data
  let dotIdxs := (List.range cs.length).filter (fun i => cs.get? i == some '.')
  match dotIdxs.getLast? with
  | some i => if i = 0 then base else String.mk (cs.take i)
  | none => base

/-- Normalization of an absolute path: empty and dot components dropped,
dot-dot components pop the previous component. Models the normalization
performed by node path.resolve. -/
def normalizePath (p : String) : String :=
  let comps := (splitSlash p).filter (fun c => c != "" && c != ".")
  let resolved := comps.foldl
    (fun acc c => if c = ".." then acc.dropLast else acc ++ [c]) []
  "/" ++ joinSlash resolved

/-- Node path.resolve against the current working directory: an absolute
argument is normalized on its own, a relative one is joined to cwd first. -/
def resolvePath (cwd dir : String) : String :=
  if startsWithStr dir "/" then normalizePath dir
  else normalizePath (cwd ++ "/" ++ dir)

/-- Node path.basename: the last nonempty slash-separated component. -/
def basenameOf (p : String) : String :=
  ((splitSlash p).filter (fun c => c != "")).getLastD ""

/-- Node path.join of two segments, with duplicate separators collapsed. -/
def pathJoin (a b : String) : String :=
  let comps := (splitSlash (a ++ "/" ++ b)).filter (fun c => c != "")
  (if startsWithStr a "/" then "/" else "") ++ joinSlash comps

/-- Symbol id construction (src/index.ts lines 75-79): the directory base
name replaces the first occurrence of the dir placeholder, then the file
name replaces the first occurrence of the name placeholder in the result.
The process working directory is passed explicitly. -/
def makeSymbolId (cwd pattern filePath : String) : String :=
  let dirName := basenameOf (resolvePath cwd (parseDirOf filePath))
  replaceFirst (replaceFirst pattern "[dir]" dirName) "[name]" (parseNameOf filePath)

/-- Plugin construction checks (src/index.ts lines 144-149): a symbolId
template without the name placeholder throws at configuration time, before
any file is read (the type of this function shows that no filesystem or
file content parameter is involved); otherwise construction proceeds and
the svgo multipass flag defaults to true when the caller did not set it. -/
def svgSpriteInit (symbolId : String) (multipassOpt : Option Bool) :
    Except String (String × Bool) :=
  if hasOccur "[name]" symbolId then Except.ok (symbolId, multipassOpt.getD true)
  else Except.error "Option symbolId must contain [name] substring."

/-- Symbol cache: the JavaScript Map from file path to compiled symbol
element, modelled as an association list in insertion order. -/
abbrev Cache := List (String × SymbolElem)

/-- Map.get on the cache. -/
def cacheGet (c : Cache) (k : String) : Option SymbolElem :=
  (c.find? (fun p => p.1 == k)).map (fun p => p.2)

/-- Map.set on the cache: overwrite in place or append. -/
def cacheSet : Cache → String → SymbolElem → Cache
  | [], k, v => [(k, v)]
  | (k0, v0) :: rest, k, v =>
      if k0 = k then (k, v) :: rest else (k0, v0) :: cacheSet rest k v

/-- Insertion of a batch of compiled entries into the cache, in the given
order. The order argument models the completion order of the concurrent
per-file compile tasks. -/
def insertAll (c : Cache) (ps : List (String × SymbolElem)) : Cache :=
  ps.foldl (fun a p => cacheSet a p.1 p.2) c

/-- Compile step for one file (src/index.ts lines 171-193): a file already
present in the cache is skipped; otherwise the read-optimize-parse
collaborator either fails (read error, optimizer throw, or no svg root
element: the catch branch logs and stores nothing) or yields the optimized
root element, from which a fresh symbol is built: every root attribute is
copied with setAttribute in order, then the id attribute is set from the
template, and the innerHTML is moved over. -/
def mkSymbol (root : RootElem) (idv : String) : SymbolElem :=
  { attrs := setAttr (root.attrs.foldl (fun acc p => setAttr acc p.1 p.2) []) "id" idv
    inner := root.inner }

/-- Result of the compile step for one file, or none when the file is
cached already or its compile fails. The cache consulted is the one from
the start of the batch: every task checks svgCache.has synchronously
before its first await, so all membership checks see the pre-batch cache. -/
def compileStep (env : String → Option RootElem) (tpl cwd : String)
    (c : Cache) (f : String) : Option (String × SymbolElem) :=
  if (cacheGet c f).isSome then none
  else (env f).map (fun root => (f, mkSymbol root (makeSymbolId cwd tpl f)))

/-- All entries compiled by one Promise.all batch, in discovery order.
Any permutation of this list is a possible completion order. -/
def compiledList (env : String → Option RootElem) (tpl cwd : String)
    (c : Cache) (files : List String) : List (String × SymbolElem) :=
  files.filterMap (compileStep env tpl cwd c)

/-- Append phase (src/index.ts lines 196-198): every discovered file is
looked up in the cache, in discovery order, and its symbol appended. The
lookup uses a non-null assertion; for a file whose compile failed the
lookup yields undefined and appendChild throws a TypeError, modelled as
the error case. -/
def appendPhase (c : Cache) : List String → Except String (List SymbolElem)
  | [] => Except.ok []
  | f :: fs =>
      match cacheGet c f with
      | none => Except.error ("TypeError: failed to append symbol for " ++ f)
      | some s => (appendPhase c fs).map (fun rest => s :: rest)

/-- Sprite root attributes (src/index.ts lines 200-205): the xml namespace
is set first, then every caller-supplied attribute in order. -/
def spriteAttrs (attributes : AttrList) : AttrList :=
  attributes.foldl (fun acc p => setAttr acc p.1 p.2) (setAttr [] "xmlns" SVG_NS)

/-- Serialization of one symbol element. -/
def renderAttrs (attrs : AttrList) : String :=
  attrs.foldl (fun acc p => acc ++ " " ++ p.1 ++ "=\"" ++ p.2 ++ "\"") ""

/-- Serialization of one symbol child. -/
def renderSymbol (s : SymbolElem) : String :=
  "<symbol" ++ renderAttrs s.attrs ++ ">" ++ s.inner ++ "</symbol>"

/-- Serialization of the sprite document, children in list order. -/
def serializeDoc (d : SpriteDoc) : String :=
  "<svg" ++ renderAttrs d.attrs ++ ">" ++ String.join (d.symbols.map renderSymbol)
    ++ "</svg>"

/-- Construction of the SvgSprite value (src/index.ts lines 54-58): the
document is serialized once and the hash of the serialization computed. -/
def mkSpriteResult (syms : List SymbolElem) (attributes : AttrList)
    (md5b64 : String → String) : SpriteResult :=
  let doc : SpriteDoc := { attrs := spriteAttrs attributes, symbols := syms }
  let content := serializeDoc doc
  { doc := doc, content := content, hash := getHash md5b64 content }

/-- Assembly from a given cache state: append in discovery order, then
build the sprite result. Fails exactly when some discovered file has no
cache entry. -/
def assembleFrom (c : Cache) (files : List String) (attributes : AttrList)
    (md5b64 : String → String) : Except String SpriteResult :=
  (appendPhase c files).map (fun syms => mkSpriteResult syms attributes md5b64)

/-- Whole generateSvgSprite pass (src/index.ts lines 157-208) for a fixed
discovery result: compile every uncached file (batch entries inserted in
discovery order, the canonical completion order), then append and
serialize. Returns the mutated cache together with the assembly outcome. -/
def runGenerate (env : String → Option RootElem) (tpl cwd : String)
    (attributes : AttrList) (md5b64 : String → String)
    (c : Cache) (files : List String) : Cache × Except String SpriteResult :=
  let c1 := insertAll c (compiledList env tpl cwd c files)
  (c1, assembleFrom c1 files attributes md5b64)

/-- Cache effect of the watcher callback (src/index.ts lines 236-242): a
path not ending in the svg suffix is ignored outright; otherwise the whole
cache is cleared. -/
def watcherInvalidate (c : Cache) (changedPath : String) : Cache :=
  if endsWithStr changedPath ".svg" then [] else c

/-- Watcher callback rebuild (src/index.ts lines 236-247): for an svg
path, clear the cache and regenerate; otherwise do nothing. The dev-server
handler handleDevChange (lines 289-292) performs the same clear followed
by the same regeneration. -/
def watcherCallback (env : String → Option RootElem) (tpl cwd : String)
    (attributes : AttrList) (md5b64 : String → String)
    (c : Cache) (files : List String) (changedPath : String) :
    Cache × Option (Except String SpriteResult) :=
  if endsWithStr changedPath ".svg" then
    let r := runGenerate env tpl cwd attributes md5b64 ([] : Cache) files
    (r.1, some r.2)
  else (c, none)

/-- Persisting decision of writeSpriteToFile (src/index.ts lines 99-117):
the pattern is resolved with the hash, joined to the directory, and the
content (with trailing newline) is written only when no identical file is
already present. The filesystem read is the explicit collaborator; the
result is the resolved path together with the content to write, or none
when the write is skipped. -/
def writeSpriteToFile (fsRead : String → Option String)
    (dir pattern content hash : String) : String × Option String :=
  let fileName := resolveFileName pattern hash
  let filePath := pathJoin dir fileName
  let fileContent := content ++ "\n"
  if fsRead filePath = some fileContent then (filePath, none)
  else (filePath, some fileContent)

/-- Write call made by the watcher callback (src/index.ts line 246): the
name pattern argument passed is the changed file path, not the
caller-supplied fileName option. -/
def watcherWrite (fsRead : String → Option String)
    (outDir assetsDir changedPath content hash : String) : String × Option String :=
  writeSpriteToFile fsRead (pathJoin outDir assetsDir) changedPath content hash

/-! Concrete inputs used by witnesses and counterexamples. -/

/-- Optimized root of a sample icon that declares width and height (the
default svgo configuration does not enable removeDimensions, so both
survive optimization). -/
def rootA : RootElem :=
  { attrs := [("viewBox", "0 0 20 20"), ("width", "20"), ("height", "20")]
    inner := "<path d=\"M1 1\"/>" }

/-- Optimized root of a sample icon without a viewBox attribute. -/
def rootB : RootElem :=
  { attrs := [("fill", "none")], inner := "<circle r=\"2\"/>" }

/-- Compile collaborator for which the file a.svg fails (no root element
or optimizer throw) while b.svg compiles. -/
def env01 : String → Option RootElem :=
  fun f => if f = "b.svg" then some rootB else none

/-- Compile collaborator for which both sample files compile. -/
def envW : String → Option RootElem :=
  fun f => if f = "a.svg" then some rootA else if f = "b.svg" then some rootB else none

/-- Compile collaborator for which every file fails. -/
def envFail : String → Option RootElem := fun _ => none

/-- Fixed digest collaborator standing in for the md5-base64 hash. -/
def md5c : String → String := fun _ => "AbC+dEf/GhI="

/-- Default symbol id template of the plugin. -/
def tpl0 : String := "[dir]-[name]"

/-- Sample process working directory. -/
def cwd0 : String := "/proj"

/-- Sample caller-supplied sprite attributes. -/
def attrs0 : AttrList := [("id", "svg-sprite")]

/-- Sample discovery result. -/
def filesW : List String := ["a.svg", "b.svg"]

/-- Symbol compiled from rootA under the default template. -/
def symA : SymbolElem := mkSymbol rootA (makeSymbolId cwd0 tpl0 "a.svg")

/-- Symbol compiled from rootB under the default template. -/
def symB : SymbolElem := mkSymbol rootB (makeSymbolId cwd0 tpl0 "b.svg")

/-- Sample warm cache holding entries for both files. -/
def c0W : Cache := [("a.svg", symA), ("b.svg", symB)]

/-- Compile batch for the sample inputs, in discovery order. -/
def ordA : List (String × SymbolElem) := compiledList envW tpl0 cwd0 [] filesW

/-- The same compile batch in the opposite completion order. -/
def ordB : List (String × SymbolElem) := ordA.reverse

/-! Lemmas about attribute lists and the compile step. -/

theorem lookupAttr_nil (n : String) : lookupAttr [] n = none := rfl

theorem lookupAttr_cons (n0 v0 : String) (attrs : AttrList) (n : String) :
    lookupAttr ((n0, v0) :: attrs) n
      = if n0 = n then some v0 else lookupAttr attrs n := by
  unfold lookupAttr
  by_cases h : n0 = n
  · rw [List.find?_cons_of_pos _ (by simp [h])]
    simp [h]
  · rw [List.find?_cons_of_neg _ (by simp [h])]
    simp [h]

theorem lookupAttr_eq_none_of_not_mem_keys (attrs : AttrList) (n : String)
    (h : n ∉ attrs.map Prod.fst) : lookupAttr attrs n = none := by
  induction attrs with
  | nil => rfl
  | cons p rest ih =>
      obtain ⟨n0, v0⟩ := p
      simp only [List.map_cons, List.mem_cons] at h
      push_neg at h
      rw [lookupAttr_cons, if_neg (fun hx => h.1 hx.symm), ih h.2]

theorem lookupAttr_setAttr_self (attrs : AttrList) (n v : String) :
    lookupAttr (setAttr attrs n v) n = some v := by
  induction attrs with
  | nil => simp [setAttr, lookupAttr_cons]
  | cons p rest ih =>
      obtain ⟨n0, v0⟩ := p
      by_cases h : n0 = n
      · subst h
        simp [setAttr, lookupAttr_cons]
      · simp [setAttr, h, lookupAttr_cons, ih]

theorem lookupAttr_setAttr_ne (attrs : AttrList) (n v m : String) (h : m ≠ n) :
    lookupAttr (setAttr attrs n v) m = lookupAttr attrs m := by
  induction attrs with
  | nil => simp [setAttr, lookupAttr_cons, lookupAttr_nil, Ne.symm h]
  | cons p rest ih =>
      obtain ⟨n0, v0⟩ := p
      by_cases h0 : n0 = n
      · subst h0
        simp [setAttr, lookupAttr_cons, Ne.symm h]
      · simp [setAttr, h0, lookupAttr_cons, ih]

theorem lookupAttr_foldSet (l : AttrList) (acc : AttrList) (n : String)
    (hnd : (l.map Prod.fst).Nodup) :
    lookupAttr (l.foldl (fun a p => setAttr a p.1 p.2) acc) n
      = match lookupAttr l n with
        | some v => some v
        | none => lookupAttr acc n := by
  induction l generalizing acc with
  | nil => simp [lookupAttr_nil]
  | cons p rest ih =>
      obtain ⟨n0, v0⟩ := p
      simp only [List.map_cons, List.nodup_cons] at hnd
      rw [List.foldl_cons, ih _ hnd.2]
      by_cases h : n0 = n
      · subst h
        have hrest : lookupAttr rest n0 = none :=
          lookupAttr_eq_none_of_not_mem_keys rest n0 hnd.1
        rw [lookupAttr_cons]
        simp [hrest, lookupAttr_setAttr_self]
      · rw [lookupAttr_cons]
        simp [h, lookupAttr_setAttr_ne _ _ _ _ (Ne.symm h)]

theorem lookup_mkSymbol_id (root : RootElem) (idv : String) :
    lookupAttr (mkSymbol root idv).attrs "id" = some idv := by
  simp [mkSymbol, lookupAttr_setAttr_self]

theorem lookup_mkSymbol_ne (root : RootElem) (idv n : String)
    (hnd : (root.attrs.map Prod.fst).Nodup) (h : n ≠ "id") :
    lookupAttr (mkSymbol root idv).attrs n = lookupAttr root.attrs n := by
  unfold mkSymbol
  rw [lookupAttr_setAttr_ne _ _ _ _ h, lookupAttr_foldSet _ _ _ hnd]
  cases hr : lookupAttr root.attrs n with
  | none => simp [lookupAttr]
  | some v => rfl

/-! Lemmas about the symbol cache. -/

theorem cacheGet_nil (k : String) : cacheGet [] k = none := rfl

theorem cacheGet_cons (k0 : String) (v0 : SymbolElem) (rest : Cache) (k : String) :
    cacheGet ((k0, v0) :: rest) k
      = if k0 = k then some v0 else cacheGet rest k := by
  unfold cacheGet
  by_cases h : k0 = k
  · rw [List.find?_cons_of_pos _ (by simp [h])]
    simp [h]
  · rw [List.find?_cons_of_neg _ (by simp [h])]
    simp [h]

theorem cacheGet_eq_none_of_not_mem_keys (c : Cache) (k : String)
    (h : k ∉ c.map Prod.fst) : cacheGet c k = none := by
  induction c with
  | nil => rfl
  | cons p rest ih =>
      obtain ⟨k0, v0⟩ := p
      simp only [List.map_cons, List.mem_cons] at h
      push_neg at h
      rw [cacheGet_cons, if_neg (fun hx => h.1 hx.symm), ih h.2]

theorem cacheGet_eq_some_of_mem (c : Cache) (k : String) (v : SymbolElem)
    (hnd : (c.map Prod.fst).Nodup) (hm : (k, v) ∈ c) : cacheGet c k = some v := by
  induction c with
  | nil => cases hm
  | cons p rest ih =>
      obtain ⟨k0, v0⟩ := p
      simp only [List.map_cons, List.nodup_cons] at hnd
      rcases List.mem_cons.mp hm with hh | ht
      · obtain ⟨hk, hv⟩ := Prod.mk.injEq .. ▸ hh
        rw [cacheGet_cons, if_pos hk.symm]
        exact congrArg some hv.symm
      · have hk : k0 ≠ k := by
          intro hx
          exact hnd.1 (hx ▸ List.mem_map_of_mem Prod.fst ht)
        rw [cacheGet_cons, if_neg hk, ih hnd.2 ht]

theorem cacheGet_cacheSet_self (c : Cache) (k : String) (v : SymbolElem) :
    cacheGet (cacheSet c k v) k = some v := by
  induction c with
  | nil => simp [cacheSet, cacheGet_cons]
  | cons p rest ih =>
      obtain ⟨k0, v0⟩ := p
      by_cases h : k0 = k
      · subst h
        simp [cacheSet, cacheGet_cons]
      · simp [cacheSet, h, cacheGet_cons, ih]

theorem cacheGet_cacheSet_ne (c : Cache) (k : String) (v : SymbolElem) (m : String)
    (h : m ≠ k) : cacheGet (cacheSet c k v) m = cacheGet c m := by
  induction c with
  | nil => simp [cacheSet, cacheGet_cons, cacheGet_nil, Ne.symm h]
  | cons p rest ih =>
      obtain ⟨k0, v0⟩ := p
      by_cases h0 : k0 = k
      · subst h0
        simp [cacheSet, cacheGet_cons, Ne.symm h]
      · simp [cacheSet, h0, cacheGet_cons, ih]

theorem isSome_cacheGet_cacheSet (c : Cache) (k : String) (v : SymbolElem) (m : String)
    (h : (cacheGet c m).isSome = true) :
    (cacheGet (cacheSet c k v) m).isSome = true := by
  by_cases hk : m = k
  · subst hk
    rw [cacheGet_cacheSet_self]
    rfl
  · rw [cacheGet_cacheSet_ne _ _ _ _ hk]
    exact h

theorem insertAll_nil (c : Cache) : insertAll c [] = c := rfl

theorem insertAll_cons (c : Cache) (p : String × SymbolElem)
    (ps : List (String × SymbolElem)) :
    insertAll c (p :: ps) = insertAll (cacheSet c p.1 p.2) ps := rfl

theorem isSome_cacheGet_insertAll_of_isSome (ps : List (String × SymbolElem))
    (c : Cache) (k : String) (h : (cacheGet c k).isSome = true) :
    (cacheGet (insertAll c ps) k).isSome = true := by
  induction ps generalizing c with
  | nil => exact h
  | cons p rest ih =>
      rw [insertAll_cons]
      exact ih _ (isSome_cacheGet_cacheSet _ _ _ _ h)

theorem isSome_cacheGet_insertAll_of_mem (ps : List (String × SymbolElem))
    (c : Cache) (k : String) (v : SymbolElem) (hm : (k, v) ∈ ps) :
    (cacheGet (insertAll c ps) k).isSome = true := by
  induction ps generalizing c with
  | nil => cases hm
  | cons p rest ih =>
      rw [insertAll_cons]
      rcases List.mem_cons.mp hm with hh | ht
      · subst hh
        exact isSome_cacheGet_insertAll_of_isSome _ _ _
          (by rw [cacheGet_cacheSet_self]; rfl)
      · exact ih _ ht

theorem cacheGet_insertAll (ps : List (String × SymbolElem)) (c : Cache) (k : String)
    (hnd : (ps.map Prod.fst).Nodup) :
    cacheGet (insertAll c ps) k
      = match cacheGet ps k with
        | some v => some v
        | none => cacheGet c k := by
  induction ps generalizing c with
  | nil => simp [insertAll_nil, cacheGet_nil]
  | cons p rest ih =>
      obtain ⟨k0, v0⟩ := p
      simp only [List.map_cons, List.nodup_cons] at hnd
      rw [insertAll_cons, ih _ hnd.2]
      by_cases h : k0 = k
      · subst h
        have hrest : cacheGet rest k0 = none :=
          cacheGet_eq_none_of_not_mem_keys rest k0 hnd.1
        rw [cacheGet_cons]
        simp [hrest, cacheGet_cacheSet_self]
      · rw [cacheGet_cons]
        simp [h, cacheGet_cacheSet_ne _ _ _ _ (Ne.symm h)]

theorem cacheGet_perm (l1 l2 : Cache) (k : String) (hp : l1.Perm l2)
    (hnd : (l1.map Prod.fst).Nodup) : cacheGet l1 k = cacheGet l2 k := by
  have hnd2 : (l2.map Prod.fst).Nodup := ((hp.map Prod.fst).nodup_iff).mp hnd
  cases hf : cacheGet l1 k with
  | some v =>
      have hmem : (k, v) ∈ l1 := by
        unfold cacheGet at hf
        cases hq : List.find? (fun p => p.1 == k) l1 with
        | none => rw [hq] at hf; cases hf
        | some q =>
            rw [hq] at hf
            obtain ⟨q1, q2⟩ := q
            have hqk : q1 = k := by
              have := List.find?_some hq
              simpa using this
            have hqv : q2 = v := by simpa using hf
            subst hqk
            subst hqv
            exact List.mem_of_find?_eq_some hq
      exact (cacheGet_eq_some_of_mem l2 k v hnd2 (hp.mem_iff.mp hmem)).symm
  | none =>
      have hnk : k ∉ l1.map Prod.fst := by
        intro hx
        obtain ⟨⟨k1, v1⟩, hmem, hk⟩ := List.mem_map.mp hx
        simp only at hk
        subst hk
        rw [cacheGet_eq_some_of_mem l1 k1 v1 hnd hmem] at hf
        cases hf
      have hnk2 : k ∉ l2.map Prod.fst := fun hx =>
        hnk ((hp.map Prod.fst).mem_iff.mpr hx)
      exact (cacheGet_eq_none_of_not_mem_keys l2 k hnk2).symm

/-! Lemmas about the append phase and the compile batch. -/

theorem appendPhase_congr (c1 c2 : Cache) (files : List String)
    (h : ∀ f ∈ files, cacheGet c1 f = cacheGet c2 f) :
    appendPhase c1 files = appendPhase c2 files := by
  induction files with
  | nil => rfl
  | cons f fs ih =>
      simp only [appendPhase]
      rw [h f (List.mem_cons_self f fs),
        ih (fun g hg => h g (List.mem_cons_of_mem f hg))]

theorem appendPhase_ok_spec (c : Cache) (files : List String) (syms : List SymbolElem)
    (h : appendPhase c files = Except.ok syms) :
    syms.length = files.length
    ∧ ∀ (i : Nat) (hi : i < files.length) (hs : i < syms.length),
        cacheGet c (files.get ⟨i, hi⟩) = some (syms.get ⟨i, hs⟩) := by
  induction files generalizing syms with
  | nil =>
      simp only [appendPhase] at h
      cases h
      exact ⟨rfl, fun i hi _ => absurd hi (Nat.not_lt_zero i)⟩
  | cons f fs ih =>
      simp only [appendPhase] at h
      cases hc : cacheGet c f with
      | none => rw [hc] at h; cases h
      | some s =>
          rw [hc] at h
          cases ha : appendPhase c fs with
          | error e => rw [ha] at h; cases h
          | ok rest =>
              rw [ha] at h
              simp only [Except.map] at h
              cases h
              obtain ⟨hlen, hget⟩ := ih rest ha
              refine ⟨by simp [hlen], ?_⟩
              intro i hi hs
              cases i with
              | zero => exact hc
              | succ j =>
                  have h1 : j < fs.length := by
                    simp only [List.length_cons] at hi
                    omega
                  have h2 : j < rest.length := by
                    simp only [List.length_cons] at hs
                    omega
                  exact hget j h1 h2

theorem compileStep_key (env : String → Option RootElem) (tpl cwd : String) (c : Cache)
    (f : String) (p : String × SymbolElem)
    (h : compileStep env tpl cwd c f = some p) : p.1 = f := by
  unfold compileStep at h
  split at h
  · cases h
  · cases he : env f with
    | none => rw [he] at h; cases h
    | some root =>
        rw [he] at h
        simp only [Option.map_some'] at h
        cases h
        rfl

theorem compiledList_keys_sublist (env : String → Option RootElem) (tpl cwd : String)
    (c : Cache) (files : List String) :
    ((compiledList env tpl cwd c files).map Prod.fst).Sublist files := by
  induction files with
  | nil => simp [compiledList]
  | cons f fs ih =>
      unfold compiledList at ih ⊢
      rw [List.filterMap_cons]
      cases hc : compileStep env tpl cwd c f with
      | none => exact ih.cons f
      | some p =>
          rw [List.map_cons, compileStep_key env tpl cwd c f p hc]
          exact ih.cons₂ f

theorem compiledList_nodup_keys (env : String → Option RootElem) (tpl cwd : String)
    (c : Cache) (files : List String) (hnd : files.Nodup) :
    ((compiledList env tpl cwd c files).map Prod.fst).Nodup :=
  hnd.sublist (compiledList_keys_sublist env tpl cwd c files)

theorem compiledList_second_run (env : String → Option RootElem) (tpl cwd : String)
    (c : Cache) (files : List String) :
    compiledList env tpl cwd (insertAll c (compiledList env tpl cwd c files)) files
      = [] := by
  apply List.filterMap_eq_nil_iff.mpr
  intro f hf
  unfold compileStep
  by_cases hs : (cacheGet (insertAll c (compiledList env tpl cwd c files)) f).isSome = true
  · rw [if_pos hs]
  · rw [if_neg hs]
    cases he : env f with
    | none => rfl
    | some root =>
        exfalso
        apply hs
        have hc0 : (cacheGet c f).isSome = false := by
          cases hb : (cacheGet c f).isSome
          · rfl
          · exact absurd (isSome_cacheGet_insertAll_of_isSome _ _ _ hb) hs
        have hmem : (f, mkSymbol root (makeSymbolId cwd tpl f))
            ∈ compiledList env tpl cwd c files := by
          apply List.mem_filterMap.mpr
          refine ⟨f, hf, ?_⟩
          unfold compileStep
          rw [if_neg (by simp [hc0]), he]
          rfl
        exact isSome_cacheGet_insertAll_of_mem _ _ _ _ hmem

/-! Lemmas about first-occurrence replacement. -/

theorem replaceFirstL_of_isPrefixOf (pat rep s : List Char) (h : pat.isPrefixOf s = true) :
    replaceFirstL pat rep s = rep ++ s.drop pat.length := by
  cases s with
  | nil =>
      simp only [replaceFirstL, h, if_true]
      simp
  | cons c cs => simp only [replaceFirstL, h, if_true]

theorem replaceFirstL_cons_neg (pat rep : List Char) (c : Char) (cs : List Char)
    (h : pat.isPrefixOf (c :: cs) = false) :
    replaceFirstL pat rep (c :: cs) = c :: replaceFirstL pat rep cs := by
  simp [replaceFirstL, h]

theorem replaceFirstL_splice (pat rep a b : List Char)
    (h : ∀ i, i < a.length → pat.isPrefixOf ((a ++ (pat ++ b)).drop i) = false) :
    replaceFirstL pat rep (a ++ (pat ++ b)) = a ++ (rep ++ b) := by
  induction a with
  | nil =>
      simp only [List.nil_append]
      rw [replaceFirstL_of_isPrefixOf pat rep (pat ++ b)
        ( List.isPrefixOf_iff_prefix.mpr (List.prefix_append pat b))]
      rw [List.drop_left]
  | cons c a ih =>
      have h0 : pat.isPrefixOf (c :: (a ++ (pat ++ b))) = false := by
        have := h 0 (by simp)
        simpa using this
      rw [List.cons_append, replaceFirstL_cons_neg pat rep c (a ++ (pat ++ b)) h0,
        List.cons_append]
      rw [ih]
      intro i hi
      have := h (i + 1) (by simpa using Nat.succ_lt_succ hi)
      simpa [List.drop_succ_cons] using this

/-! Claim theorems. -/

/-- C1: for every fixed set of icon file contents (the compile collaborator
env) and fixed directory enumeration order (the files list), running the
sprite assembly twice yields byte-identical serialized sprite content and
an identical content hash. The second pass starts from the cache left by
the first pass, as generateSvgSprite does; the starting cache of the first
pass and the digest collaborator are arbitrary. Equality of the outcomes
covers the document, its serialized content and its hash. -/
theorem c1_generate_deterministic (env : String → Option RootElem) (tpl cwd : String)
    (attributes : AttrList) (md5b64 : String → String) (c : Cache)
    (files : List String) :
    (runGenerate env tpl cwd attributes md5b64
        ((runGenerate env tpl cwd attributes md5b64 c files).1) files).2
      = (runGenerate env tpl cwd attributes md5b64 c files).2 := by
  have hfst : (runGenerate env tpl cwd attributes md5b64 c files).1
      = insertAll c (compiledList env tpl cwd c files) := rfl
  rw [hfst]
  have h0 := compiledList_second_run env tpl cwd c files
  show assembleFrom (insertAll (insertAll c (compiledList env tpl cwd c files))
        (compiledList env tpl cwd (insertAll c (compiledList env tpl cwd c files)) files))
        files attributes md5b64
      = assembleFrom (insertAll c (compiledList env tpl cwd c files)) files attributes md5b64
  rw [h0, insertAll_nil]

/-- C2 counterexample: the compiled symbol of a source icon whose optimized
root declares width and height DOES carry both attributes, because the
attribute copy loop at src/index.ts lines 184-186 copies every root
attribute and nothing removes width or height (the default svgo
configuration does not enable removeDimensions). This refutes the claim
that a symbol never contains width or height. -/
theorem c2_width_height_in_symbol :
    lookupAttr (mkSymbol rootA "s0").attrs "width" = some "20"
    ∧ lookupAttr (mkSymbol rootA "s0").attrs "height" = some "20" := ⟨rfl, rfl⟩

/-- C2 amended: every attribute of the optimized root element, INCLUDING
width and height, is copied verbatim onto the compiled symbol; only the id
attribute is overwritten by the template substitution afterwards. Stated
for roots with well-formed (duplicate-free) attribute names. -/
theorem c2_all_attributes_copied (root : RootElem) (idv n : String)
    (hnd : (root.attrs.map Prod.fst).Nodup) (h : n ≠ "id") :
    lookupAttr (mkSymbol root idv).attrs n = lookupAttr root.attrs n :=
  lookup_mkSymbol_ne root idv n hnd h

/-- Witness for c2_all_attributes_copied at a concrete root declaring
width. -/
theorem c2_all_attributes_copied_witness :
    lookupAttr (mkSymbol rootA "s0").attrs "width" = lookupAttr rootA.attrs "width" :=
  c2_all_attributes_copied rootA "s0" "width" (by decide) (by decide)

/-- C3: regardless of the completion order of the concurrent per-file
compiles (any permutation ord1, ord2 of the compile batch inserted into
the cache), the assembly outcome is identical, and on success the i-th
symbol of the sprite document is the cached symbol of the i-th file of the
discovery order. Concurrency affects cache insertion order only, never
the serialized output or the symbol order. -/
theorem c3_order_matches_discovery (env : String → Option RootElem) (tpl cwd : String)
    (attributes : AttrList) (md5b64 : String → String) (c : Cache)
    (files : List String) (ord1 ord2 : List (String × SymbolElem))
    (h1 : ord1.Perm (compiledList env tpl cwd c files))
    (h2 : ord2.Perm (compiledList env tpl cwd c files))
    (hnd : files.Nodup) :
    assembleFrom (insertAll c ord1) files attributes md5b64
        = assembleFrom (insertAll c ord2) files attributes md5b64
    ∧ ∀ res, assembleFrom (insertAll c ord1) files attributes md5b64 = Except.ok res →
        res.doc.symbols.length = files.length
        ∧ ∀ (i : Nat) (hi : i < files.length) (hs : i < res.doc.symbols.length),
            cacheGet (insertAll c ord1) (files.get ⟨i, hi⟩)
              = some (res.doc.symbols.get ⟨i, hs⟩) := by
  have hkey : ((compiledList env tpl cwd c files).map Prod.fst).Nodup :=
    compiledList_nodup_keys env tpl cwd c files hnd
  have hnd1 : (ord1.map Prod.fst).Nodup := ((h1.map Prod.fst).nodup_iff).mpr hkey
  have hp12 : ord1.Perm ord2 := h1.trans h2.symm
  have hgets : ∀ f, cacheGet (insertAll c ord1) f = cacheGet (insertAll c ord2) f := by
    intro f
    rw [cacheGet_insertAll ord1 c f hnd1,
      cacheGet_insertAll ord2 c f (((hp12.map Prod.fst).nodup_iff).mp hnd1),
      cacheGet_perm ord1 ord2 f hp12 hnd1]
  constructor
  · unfold assembleFrom
    rw [appendPhase_congr _ _ files (fun f _ => hgets f)]
  · intro res hres
    unfold assembleFrom at hres
    cases ha : appendPhase (insertAll c ord1) files with
    | error e => rw [ha] at hres; cases hres
    | ok syms =>
        rw [ha] at hres
        simp only [Except.map] at hres
        cases hres
        obtain ⟨hlen, hget⟩ := appendPhase_ok_spec _ _ _ ha
        exact ⟨hlen, fun i hi hs => hget i hi hs⟩

/-- Witness for c3_order_matches_discovery: the two completion orders of
the sample batch produce the same assembly outcome. -/
theorem c3_order_matches_discovery_witness :
    assembleFrom (insertAll [] ordB) filesW attrs0 md5c
      = assembleFrom (insertAll [] ordA) filesW attrs0 md5c :=
  (c3_order_matches_discovery envW tpl0 cwd0 attrs0 md5c [] filesW ordB ordA
    (List.reverse_perm ordA) (List.Perm.refl ordA) (by decide)).1

/-- C4 counterexample: after a change event for a.svg alone, the cache
entry of the unchanged file b.svg is gone as well, because the watcher
callback (src/index.ts line 241) and handleDevChange (line 291) call
svgCache.clear() and remove every entry, not only those of the changed
paths. This refutes the claim that only the changed paths are removed. -/
theorem c4_unchanged_entry_removed :
    cacheGet (watcherInvalidate c0W "a.svg") "b.svg" = none
    ∧ cacheGet c0W "b.svg" = some symB := ⟨rfl, rfl⟩

/-- C4 amended: a change event for an svg path clears the ENTIRE
SymbolCache, so the subsequent reassembly runs from the empty cache and
recompiles every file; no entry of the previous cache is reused. -/
theorem c4_change_clears_whole_cache (env : String → Option RootElem) (tpl cwd : String)
    (attributes : AttrList) (md5b64 : String → String) (c : Cache)
    (files : List String) (p : String) (h : endsWithStr p ".svg" = true) :
    watcherCallback env tpl cwd attributes md5b64 c files p
      = ((runGenerate env tpl cwd attributes md5b64 [] files).1,
         some (runGenerate env tpl cwd attributes md5b64 [] files).2) := by
  unfold watcherCallback
  rw [if_pos h]

/-- Witness for c4_change_clears_whole_cache at the sample warm cache. -/
theorem c4_change_clears_whole_cache_witness :
    watcherCallback envW tpl0 cwd0 attrs0 md5c c0W filesW "a.svg"
      = ((runGenerate envW tpl0 cwd0 attrs0 md5c [] filesW).1,
         some (runGenerate envW tpl0 cwd0 attrs0 md5c [] filesW).2) :=
  c4_change_clears_whole_cache envW tpl0 cwd0 attrs0 md5c c0W filesW "a.svg" (by decide)

/-- C5: evaluation of the code at the failing input. When a.svg fails to
compile and b.svg succeeds, the claim says assembly must not abort and
must include the symbol of b.svg; instead generateSvgSprite throws (the
append loop at src/index.ts line 197 calls appendChild on the undefined
result of svgCache.get for the failed file), even though the symbol of
b.svg was compiled and cached. The older revision in the same file
appends inside the per-file try block and skips properly, showing the
skip-and-continue behaviour is the intent and the current loop a slip. -/
theorem c5_failed_compile_aborts_assembly :
    (runGenerate env01 tpl0 cwd0 [] md5c [] filesW).2
        = Except.error "TypeError: failed to append symbol for a.svg"
    ∧ cacheGet (runGenerate env01 tpl0 cwd0 [] md5c [] filesW).1 "b.svg" = some symB :=
  ⟨rfl, rfl⟩

/-- C6 counterexample: the compiled symbol of a source icon whose
optimized root lacks a viewBox attribute has NO viewBox attribute at all;
nothing in generateSvgSprite (src/index.ts lines 176-189) supplies the
default 0 0 24 24. This refutes the claimed defaulting. -/
theorem c6_missing_viewbox_not_defaulted :
    lookupAttr (mkSymbol rootB "s1").attrs "viewBox" = none
    ∧ lookupAttr (mkSymbol rootB "s1").attrs "viewBox" ≠ some "0 0 24 24" := by
  constructor
  · rfl
  · decide

/-- C6 amended: the compiled symbol carries a viewBox attribute exactly
when the optimized root element carries one, with the same value; no
default is ever applied. -/
theorem c6_viewbox_copied_not_defaulted (root : RootElem) (idv : String)
    (hnd : (root.attrs.map Prod.fst).Nodup) :
    lookupAttr (mkSymbol root idv).attrs "viewBox" = lookupAttr root.attrs "viewBox" :=
  lookup_mkSymbol_ne root idv "viewBox" hnd (by decide)

/-- Witness for c6_viewbox_copied_not_defaulted at a root without
viewBox. -/
theorem c6_viewbox_copied_not_defaulted_witness :
    lookupAttr (mkSymbol rootB "s1").attrs "viewBox" = lookupAttr rootB.attrs "viewBox" :=
  c6_viewbox_copied_not_defaulted rootB "s1" (by decide)

/-- C7: a SymbolId template without the name placeholder makes plugin
construction fail with the configuration error, and every template
containing the placeholder passes the check; the check happens at
construction, before any icon file is read (svgSpriteInit takes no
filesystem or file content argument). -/
theorem c7_template_name_check (symbolId : String) (mp : Option Bool) :
    (hasOccur "[name]" symbolId = false →
      svgSpriteInit symbolId mp
        = Except.error "Option symbolId must contain [name] substring.")
    ∧ (hasOccur "[name]" symbolId = true →
      svgSpriteInit symbolId mp = Except.ok (symbolId, mp.getD true)) := by
  constructor
  · intro h
    simp [svgSpriteInit, h]
  · intro h
    simp [svgSpriteInit, h]

/-- Witness for c7_template_name_check at a rejected and at an accepted
template. -/
theorem c7_template_name_check_witness :
    svgSpriteInit "plain" none
        = Except.error "Option symbolId must contain [name] substring."
    ∧ svgSpriteInit "[dir]-[name]" none = Except.ok ("[dir]-[name]", true) :=
  ⟨(c7_template_name_check "plain" none).1 (by decide),
   (c7_template_name_check "[dir]-[name]" none).2 (by decide)⟩

/-- C8: evaluation of the code at the two zero-symbol situations. With no
discovered files, assembly succeeds and yields the well-formed empty
sprite (no symbols, namespace plus caller attributes applied), as the
claim states. But when files were discovered and every one of them failed
to compile, the claim still requires success with an empty document,
whereas the append loop throws on the first missing cache entry, so the
code contradicts the degrade-gracefully intent in that case. -/
theorem c8_no_files_ok_but_all_failed_throws :
    (runGenerate envFail tpl0 cwd0 attrs0 md5c [] ([] : List String)).2
        = Except.ok (mkSpriteResult [] attrs0 md5c)
    ∧ (mkSpriteResult [] attrs0 md5c).doc.symbols = ([] : List SymbolElem)
    ∧ (mkSpriteResult [] attrs0 md5c).doc.attrs
        = [("xmlns", SVG_NS), ("id", "svg-sprite")]
    ∧ (runGenerate envFail tpl0 cwd0 attrs0 md5c [] ["a.svg"]).2
        = Except.error "TypeError: failed to append symbol for a.svg" :=
  ⟨rfl, rfl, rfl, rfl⟩

/-- C9: evaluation of the code at the failing input. In watch mode the
write call of the watcher callback (src/index.ts line 246) passes the
CHANGED FILE PATH as the name pattern, so after a change to icons/a.svg
the artifact is written to dist/assets/icons/a.svg, which differs from
the path the claim requires, namely the caller-supplied fileName pattern
sprite-[hash].svg with the hash substituted. The guard on line 244 tests
filePath instead of fileName, so the write also happens when no fileName
option was configured; generateBundle and the older revision both pass
fileName, showing the slip. -/
theorem c9_watcher_write_uses_changed_path :
    watcherWrite (fun _ => none) "dist" "assets" "icons/a.svg" "<svg/>" "h1"
        = ("dist/assets/icons/a.svg", some "<svg/>\n")
    ∧ "dist/assets/icons/a.svg"
        ≠ pathJoin "dist/assets" (resolveFileName "sprite-[hash].svg" "h1") := by
  constructor
  · rfl
  · decide

/-- C10 counterexample: with a directory whose base name itself contains
the name placeholder, the second replace call substitutes the occurrence
that the directory substitution just inserted, and the first occurrence
of the name placeholder IN THE TEMPLATE stays literal, refuting the claim
that exactly the first template occurrence of each placeholder is
substituted. -/
theorem c10_template_positions :
    makeSymbolId cwd0 "[dir][name]" "a[name]b/icon.svg" = "aiconb[name]"
    ∧ makeSymbolId cwd0 "[dir][name]" "a[name]b/icon.svg" ≠ "a[name]bicon" := by
  constructor
  · rfl
  · decide

/-- C10 amended: makeSymbolId performs two sequential first-occurrence
substitutions: the first occurrence of the dir placeholder in the
template, then the first occurrence of the name placeholder in the
resulting string (which can lie inside the substituted directory name).
Each substitution replaces exactly the leftmost occurrence: whenever the
pattern occurs at a position before which it does not occur, everything
after that occurrence, including any later occurrences, is kept as
literal text. -/
theorem c10_first_occurrence_only :
    (∀ cwd tpl fp, makeSymbolId cwd tpl fp
        = replaceFirst (replaceFirst tpl "[dir]"
            (basenameOf (resolvePath cwd (parseDirOf fp)))) "[name]" (parseNameOf fp))
    ∧ (∀ (pat rep a b : List Char),
        (∀ i, i < a.length → pat.isPrefixOf ((a ++ (pat ++ b)).drop i) = false) →
        replaceFirstL pat rep (a ++ (pat ++ b)) = a ++ (rep ++ b)) := by
  constructor
  · intro cwd tpl fp
    rfl
  · intro pat rep a b h
    exact replaceFirstL_splice pat rep a b h

/-- Witness for c10_first_occurrence_only: the first occurrence of the
name placeholder is substituted and a later occurrence stays literal. -/
theorem c10_first_occurrence_only_witness :
    replaceFirstL ("[name]".data) ("icon".data)
        ("x".data ++ ("[name]".data ++ "y[name]z".data))
      = "x".data ++ ("icon".data ++ "y[name]z".data) :=
  (c10_first_occurrence_only).2 ("[name]".data) ("icon".data) ("x".data)
    ("y[name]z".data) (by decide)

end VitePluginSvgSprite
